import Mathlib

/-!
Verification of the incremental synchronization engine of NOVA Clippy
(`nova_clippy/main.py`): the `dict_compare` diff primitive, the per-course
category scan `search_cats_in_course`, the per-category file resolution
`search_files_in_category`, the fan-out/fan-in executor `threadpool_execute`,
and the login retry loop in `main`.

Python dictionaries over category names are modelled as insertion-ordered
association lists with unique keys (`Dict`); a Python `None` argument is
modelled as `Option.none`.  Stateful steps of the per-course pipeline
(folder creation, cache reads and writes, the local-folder count) are made
explicit: the cache store is threaded as a value, and the pipeline also
produces a trace of `Event`s in the order the corresponding statements
execute in the source.
-/

/-- A Python `dict[str, int]`, as an insertion-ordered association list.
Uniqueness of keys is an invariant (`NodupKeys`), assumed where needed. -/
abbrev Dict := List (String × Nat)

/-- Python `d[key]` / `key in d` on the association-list model: the value at
the first entry whose key is `k`, if any. -/
def dlookup (k : String) : Dict → Option Nat
  | [] => none
  | (k', v) :: tl => if k = k' then some v else dlookup k tl

/-- The keys of `d` are pairwise distinct, as in a real Python dict. -/
def NodupKeys (d : Dict) : Prop := (d.map Prod.fst).Nodup

instance (d : Dict) : Decidable (NodupKeys d) :=
  inferInstanceAs (Decidable (d.map Prod.fst).Nodup)

/-- The dictionary-comprehension branch of `dict_compare` (main.py line 241):
`{key: dict_a[key] for key in dict_a.keys() if key not in dict_b or
dict_a[key] > dict_b[key]}`. -/
def dcomp (dict_a dict_b : Dict) : Dict :=
  dict_a.filter fun kv =>
    match dlookup kv.1 dict_b with
    | none => true
    | some bv => decide (kv.2 > bv)

/-- Embedding of `dict_compare` (main.py lines 238-241): `if dict_b is None:
return dict_a`, `elif dict_a is None: return dict_b`, else the comprehension
`dcomp`.  `none` models a Python `None` argument. -/
def dict_compare (dict_a dict_b : Option Dict) : Option Dict :=
  match dict_b with
  | none => dict_a
  | some b =>
    match dict_a with
    | none => some b
    | some a => some (dcomp a b)

theorem dlookup_mem {k : String} {v : Nat} :
    ∀ {d : Dict}, dlookup k d = some v → (k, v) ∈ d := by
  intro d
  induction d with
  | nil => intro h; simp [dlookup] at h
  | cons hd tl ih =>
    obtain ⟨k', v'⟩ := hd
    intro h
    by_cases hk : k = k'
    · simp [dlookup, hk] at h
      simp [hk, h]
    · simp [dlookup, hk] at h
      exact List.mem_cons_of_mem _ (ih h)

theorem dlookup_filter_none {k : String} (p : String × Nat → Bool) :
    ∀ {d : Dict}, k ∉ d.map Prod.fst → dlookup k (d.filter p) = none := by
  intro d
  induction d with
  | nil => intro _; rfl
  | cons hd tl ih =>
    intro h
    simp only [List.map_cons, List.mem_cons] at h
    push_neg at h
    obtain ⟨h1, h2⟩ := h
    rw [List.filter_cons]
    by_cases hp : p hd
    · simp only [hp, if_true]
      obtain ⟨k', v'⟩ := hd
      simp only at h1
      simp [dlookup, h1, ih h2]
    · simp only [hp]
      simp [ih h2]

theorem dcomp_dlookup (b : Dict) :
    ∀ (a : Dict), NodupKeys a → ∀ k,
      dlookup k (dcomp a b) =
        match dlookup k a, dlookup k b with
        | some av, none => some av
        | some av, some bv => if bv < av then some av else none
        | none, _ => none := by
  intro a
  induction a with
  | nil => intro _ k; simp [dcomp, dlookup]
  | cons hd tl ih =>
    obtain ⟨k', v'⟩ := hd
    intro ha k
    simp only [NodupKeys, List.map_cons, List.nodup_cons] at ha
    obtain ⟨hk', htl⟩ := ha
    have ihtl := ih htl k
    simp only [dcomp, List.filter_cons] at ihtl ⊢
    by_cases hk : k = k'
    · subst hk
      cases hb : dlookup k b with
      | none =>
        simp only [hb]
        simp [dlookup]
      | some bv =>
        simp only [hb]
        by_cases hlt : v' > bv
        · rw [if_pos (by simpa using hlt)]
          simp [dlookup, hb, hlt]
        · rw [if_neg (by simpa using hlt)]
          have hnone : dlookup k (List.filter
              (fun kv => match dlookup kv.1 b with
                | none => true
                | some bv => decide (kv.2 > bv)) tl) = none :=
            dlookup_filter_none _ hk'
          have hhd : dlookup k ((k, v') :: tl) = some v' := by simp [dlookup]
          rw [hnone, hhd]
          simp [hlt]
    · have hda : dlookup k ((k', v') :: tl) = dlookup k tl := by
        simp [dlookup, hk]
      rw [hda]
      by_cases hp : (match dlookup k' b with
          | none => true
          | some bv => decide (v' > bv)) = true
      · rw [if_pos hp]
        rw [show dlookup k ((k', v') :: List.filter
            (fun kv => match dlookup kv.1 b with
              | none => true
              | some bv => decide (kv.2 > bv)) tl) = dlookup k (List.filter
            (fun kv => match dlookup kv.1 b with
              | none => true
              | some bv => decide (kv.2 > bv)) tl) from by simp [dlookup, hk]]
        exact ihtl
      · rw [if_neg hp]
        exact ihtl

/-- C1: for non-absent mappings `a`, `b`, the diff `dict_compare a b` contains
exactly the keys `k` of `a` with `k` missing from `b` or `a[k] > b[k]`, each
mapped to `a[k]`; in particular no key with `a[k] ≤ b[k]` ever appears.  The
lookup of any key `k` in the result is characterised completely. -/
theorem c1_dict_compare_characterisation (a b : Dict) (ha : NodupKeys a) (k : String) :
    dlookup k ((dict_compare (some a) (some b)).getD []) =
      match dlookup k a, dlookup k b with
      | some av, none => some av
      | some av, some bv => if bv < av then some av else none
      | none, _ => none :=
  dcomp_dlookup b a ha k

/-- Witness for C1 at a concrete input: `a = {"x": 2}`, `b = {"y": 1}`,
key `"x"` is absent from `b`, so it appears with value `2`. -/
theorem c1_witness :
    NodupKeys [("x", 2)] ∧
      dlookup "x" ((dict_compare (some [("x", 2)]) (some [("y", 1)])).getD []) =
        match dlookup "x" [("x", 2)], dlookup "x" [("y", 1)] with
        | some av, none => some av
        | some av, some bv => if bv < av then some av else none
        | none, _ => none :=
  ⟨by decide, c1_dict_compare_characterisation [("x", 2)] [("y", 1)] (by decide) "x"⟩

/-- C2: with the absent (`None`) mapping as the degenerate argument,
`dict_compare` returns the other argument unchanged: `Diff(a, ∅) = a` and
`Diff(∅, b) = b` (main.py lines 239-240). -/
theorem c2_dict_compare_absent (a b : Dict) :
    dict_compare (some a) none = some a ∧ dict_compare none (some b) = some b :=
  ⟨rfl, rfl⟩

/-- The in-memory catalog index of one course (the `CatCount` produced by
`parse_index`): per-category remote document counts plus the
category-name to category-identifier lookup `get_catID`. -/
structure CatIndex where
  counts : Dict
  getCatID : String → String

/-- One unit of stage-2 work, the tuple
`(category, index.get_catID(category), course, full_path)` appended to
`_subcats` in `search_cats_in_course` (main.py lines 274 and 289).  The
course and target path are carried as opaque strings. -/
structure SyncTask where
  category : String
  catID : String
  course : String
  fullPath : String
deriving DecidableEq

/-- Observable effects of the per-course pipeline, in program order:
folder creation (line 256), the cache read (line 259), the optimistic cache
write (line 271), the local folder count (line 277), then per-task file
listing resolution (line 307) and file downloads (stage 4 of `main`). -/
inductive Event where
  | mkdir
  | parseCache
  | stashCache (d : Dict)
  | countFolders
  | listFiles (category : String)
  | download (file : String)
deriving DecidableEq

/-- Modelled from the spec: `parse_cache` (handlers/cache_handler.py, not in
src/) reads the persisted record for the course path and returns an empty
mapping when none exists; it never returns `None` and never fails the run. -/
def parse_cache (store : Option Dict) : Dict := store.getD []

/-- Modelled from the spec: `stash_cache` (handlers/cache_handler.py, not in
src/) overwrites the persisted record with the live index. -/
def stash_cache (d : Dict) (_store : Option Dict) : Option Dict := some d

/-- Embedding of `search_cats_in_course` (main.py lines 243-293).  The live
index is `index`; `store` is the persisted cache record for the course's
path (read through `parse_cache`); `folderdict` is the result of the
`count_files_in_subfolders` collaborator.  Returns the event trace, the
returned `_subcats` value (`none` models the implicit `None` return of the
empty-index branch, which has no `else`-free fallthrough tasks), and the
persisted store after the call.  Both `dict_compare` call sites receive two
non-`None` dictionaries, so they are written via `dcomp`
(`dict_compare (some a) (some b) = some (dcomp a b)` holds by `rfl`). -/
def search_cats_in_course (course fullPath : String) (index : CatIndex)
    (store : Option Dict) (folderdict : Dict) :
    List Event × Option (List SyncTask) × Option Dict :=
  if index.counts = [] then
    ([], none, store)
  else
    let cachedict := parse_cache store
    let cachediff := dcomp index.counts cachedict
    let folderdiff := dcomp cachedict folderdict
    let subcats1 : List SyncTask :=
      if cachediff = [] then []
      else cachediff.map fun kv => ⟨kv.1, index.getCatID kv.1, course, fullPath⟩
    let subcats2 : List SyncTask :=
      if folderdiff = [] then []
      else folderdiff.map fun kv => ⟨kv.1, index.getCatID kv.1, course, fullPath⟩
    let ev1 : List Event := if cachediff = [] then [] else [Event.stashCache index.counts]
    let store1 := if cachediff = [] then store else stash_cache index.counts store
    (Event.mkdir :: Event.parseCache :: ev1 ++ [Event.countFolders],
      some (subcats1 ++ subcats2), store1)

/-- The `for file in table` loop of `search_files_in_category` (main.py
lines 310-315): resolve each entry in order with `get_file`, keep the
non-`None` results in order; a raised exception aborts the loop. -/
def search_files_go {F R E : Type} (get_file : F → Except E (Option R)) :
    List F → Except E (List R)
  | [] => .ok []
  | f :: rest =>
    match get_file f with
    | .error e => .error e
    | .ok none => search_files_go get_file rest
    | .ok (some x) =>
      match search_files_go get_file rest with
      | .error e => .error e
      | .ok rs => .ok (x :: rs)

/-- Embedding of `search_files_in_category` (main.py lines 295-322).  The
`parse_docs` call is abstracted by its outcome `table`; `get_file` abstracts
the per-file resolution collaborator.  The whole body is a `try` whose
`except` clause logs and falls through, so any raised exception yields the
implicit `None` return. -/
def search_files_in_category {F R E : Type} (table : Except E (List F))
    (get_file : F → Except E (Option R)) : Option (List R) :=
  match table with
  | .error _ => none
  | .ok files =>
    match search_files_go get_file files with
    | .error _ => none
    | .ok rs => some rs

/-- The per-course slice of the three-stage pipeline of `main`: stage 2
(`search_cats_in_course`), then stage 3 (one `listFiles` resolution per
emitted task, via `search_files_in_category`), then stage 4 (one `download`
per aggregated file descriptor).  Stages are sequential barriers in `main`
(lines 154-167), so every stage-3 and stage-4 event follows every stage-2
event. -/
def course_pipeline (course fullPath : String) (index : CatIndex)
    (store : Option Dict) (folderdict : Dict)
    (listing : SyncTask → Except String (List String))
    (get_file : String → Except String (Option String)) :
    List Event × Option Dict :=
  let r := search_cats_in_course course fullPath index store folderdict
  let ts := r.2.1.getD []
  let files := ts.foldr
    (fun t acc => (search_files_in_category (listing t) get_file).getD [] ++ acc) []
  (r.1 ++ ts.map (fun t => Event.listFiles t.category) ++ files.map Event.download,
    r.2.2)

/-- C7: a course whose catalog index is empty is skipped: no event at all is
emitted (in particular no folder creation), no task list is returned (the
Python function returns `None`), and the persisted store is untouched
(main.py lines 249-250, where the branch only logs). -/
theorem c7_empty_index_skips_course (course fullPath : String) (index : CatIndex)
    (store : Option Dict) (folderdict : Dict) (h : index.counts = []) :
    search_cats_in_course course fullPath index store folderdict = ([], none, store) := by
  unfold search_cats_in_course
  rw [if_pos h]

/-- A concrete catalog index with one category of count 1. -/
def wIndex : CatIndex := ⟨[("S", 1)], fun _ => "i"⟩

/-- A concrete catalog index with no categories. -/
def wIndexEmpty : CatIndex := ⟨[], fun _ => "i"⟩

/-- Witness for C7: with an empty index, the call returns no events, no
tasks, and the store it was given. -/
theorem c7_witness :
    wIndexEmpty.counts = [] ∧
      search_cats_in_course "C" "P" wIndexEmpty (some [("S", 2)]) []
        = ([], none, some [("S", 2)]) :=
  ⟨rfl, c7_empty_index_skips_course "C" "P" wIndexEmpty (some [("S", 2)]) [] rfl⟩

/-- Counterexample to C3: live index `{"S": 3}`, cached record `{"S": 2}`,
local folder count `{"S": 1}`.  Category `"S"` is in the server-vs-cache
diff (3 > 2) and in the folder-vs-cache diff (2 > 1); the union contains
the single category `"S"`, yet `search_cats_in_course` emits two tasks for
it (main.py lines 273-274 and 288-289 append without deduplication). -/
theorem c3_counterexample :
    (((search_cats_in_course "C" "P" ⟨[("S", 3)], fun _ => "id"⟩
        (some [("S", 2)]) [("S", 1)]).2.1.getD []).countP
          (fun t => t.category == "S")) = 2 := by decide

/-- C3 as amended: the per-course stage emits one SyncTask per category per
diff in which it appears — the emitted task list is the concatenation of the
server-vs-cache diff's tasks and the folder-vs-cache diff's tasks, with no
collapsing, so a category present in both diffs yields two tasks. -/
theorem c3_tasks_follow_both_diffs (course fullPath : String) (index : CatIndex)
    (store : Option Dict) (folderdict : Dict) (h : index.counts ≠ []) :
    ((search_cats_in_course course fullPath index store folderdict).2.1.getD []).map
        (fun t => t.category)
      = (dcomp index.counts (parse_cache store)).map Prod.fst
        ++ (dcomp (parse_cache store) folderdict).map Prod.fst := by
  unfold search_cats_in_course
  rw [if_neg h]
  by_cases hc : dcomp index.counts (parse_cache store) = [] <;>
    by_cases hf : dcomp (parse_cache store) folderdict = [] <;>
      (simp [hc, hf]; try rfl)

/-- Witness for C3's amended theorem at the counterexample input: the two
emitted categories are `"S"` from each diff. -/
theorem c3_amended_witness :
    (⟨[("S", 3)], fun _ => "id"⟩ : CatIndex).counts ≠ [] ∧
      ((search_cats_in_course "C" "P" ⟨[("S", 3)], fun _ => "id"⟩
          (some [("S", 2)]) [("S", 1)]).2.1.getD []).map (fun t => t.category)
        = (dcomp (⟨[("S", 3)], fun _ => "id"⟩ : CatIndex).counts
              (parse_cache (some [("S", 2)]))).map Prod.fst
          ++ (dcomp (parse_cache (some [("S", 2)])) [("S", 1)]).map Prod.fst :=
  ⟨by decide, c3_tasks_follow_both_diffs "C" "P" ⟨[("S", 3)], fun _ => "id"⟩
    (some [("S", 2)]) [("S", 1)] (by decide)⟩

/-- C6: with an empty server-vs-cache diff, a category whose cached count
strictly exceeds the number of files actually on disk (absent subfolders
count as zero) is still emitted as a SyncTask, via the folder-vs-cache diff
(main.py lines 277-289). -/
theorem c6_folder_drift_rescheduled (course fullPath : String) (index : CatIndex)
    (store : Option Dict) (folderdict : Dict) (k : String) (c : Nat)
    (h1 : index.counts ≠ [])
    (h2 : dcomp index.counts (parse_cache store) = [])
    (h3 : dlookup k (parse_cache store) = some c)
    (h4 : (dlookup k folderdict).getD 0 < c) :
    ∃ t ∈ (search_cats_in_course course fullPath index store folderdict).2.1.getD [],
      t.category = k := by
  have hmem : (k, c) ∈ dcomp (parse_cache store) folderdict := by
    apply List.mem_filter.mpr
    refine ⟨dlookup_mem h3, ?_⟩
    cases hf : dlookup k folderdict with
    | none => simp [hf]
    | some bv =>
      simp only [hf, Option.getD_some] at h4
      simp [hf, h4]
  have hne : dcomp (parse_cache store) folderdict ≠ [] := List.ne_nil_of_mem hmem
  unfold search_cats_in_course
  rw [if_neg h1]
  refine ⟨⟨k, index.getCatID k, course, fullPath⟩, ?_, rfl⟩
  simp only [h2, hne, if_pos rfl, if_neg hne, Option.getD_some, List.nil_append]
  exact List.mem_map.mpr ⟨(k, c), hmem, rfl⟩

/-- Witness for C6: cache `{"S": 1}`, live index `{"S": 1}` (server diff
empty), empty local folder inventory — category `"S"` is rescheduled. -/
theorem c6_witness :
    wIndex.counts ≠ [] ∧
      dcomp wIndex.counts (parse_cache (some [("S", 1)])) = [] ∧
      dlookup "S" (parse_cache (some [("S", 1)])) = some 1 ∧
      (dlookup "S" ([] : Dict)).getD 0 < 1 ∧
      ∃ t ∈ (search_cats_in_course "C" "P" wIndex (some [("S", 1)]) []).2.1.getD [],
        t.category = "S" :=
  ⟨by decide, by decide, by decide, by decide,
    c6_folder_drift_rescheduled "C" "P" wIndex (some [("S", 1)]) [] "S" 1
      (by decide) (by decide) (by decide) (by decide)⟩

/-- C10: when the server-vs-cache diff is non-empty, the persisted record
has already been overwritten with the live index (`stash_cache`, main.py
line 271), yet the folder-vs-cache diff driving the second batch of tasks
is still computed from the cache record as loaded at the start
(`cachedict`, line 259) — the pre-stage value — not from the staged live
index (line 278 uses `cachedict`, not `index`). -/
theorem c10_folderdiff_uses_prestage_cache (course fullPath : String) (index : CatIndex)
    (store : Option Dict) (folderdict : Dict)
    (h1 : index.counts ≠ [])
    (h2 : dcomp index.counts (parse_cache store) ≠ []) :
    (search_cats_in_course course fullPath index store folderdict).2.2
        = some index.counts
    ∧ (((search_cats_in_course course fullPath index store folderdict).2.1.getD []).drop
          (dcomp index.counts (parse_cache store)).length).map (fun t => t.category)
        = (dcomp (parse_cache store) folderdict).map Prod.fst := by
  unfold search_cats_in_course
  rw [if_neg h1]
  constructor
  · simp [h2, stash_cache]
  · by_cases hf : dcomp (parse_cache store) folderdict = []
    · simp [h2, hf]
    · simp only [h2, hf, if_false, Option.getD_some]
      rw [show (dcomp index.counts (parse_cache store)).length
          = ((dcomp index.counts (parse_cache store)).map
              (fun kv => (⟨kv.1, index.getCatID kv.1, course, fullPath⟩ : SyncTask))).length
          from (List.length_map _ _).symm]
      rw [List.drop_left]
      simp only [List.map_map]
      rfl

/-- Witness for C10: live index `{"S": 2}`, cache `{"S": 1}`, empty folder.
The store ends up staged at `{"S": 2}`, and the folder-phase categories are
those of `Diff({"S": 1}, {})` — judged against the old cache. -/
theorem c10_witness :
    (⟨[("S", 2)], fun _ => "i"⟩ : CatIndex).counts ≠ [] ∧
      dcomp (⟨[("S", 2)], fun _ => "i"⟩ : CatIndex).counts
          (parse_cache (some [("S", 1)])) ≠ [] ∧
      ((search_cats_in_course "C" "P" ⟨[("S", 2)], fun _ => "i"⟩
          (some [("S", 1)]) []).2.2 = some [("S", 2)]
        ∧ (((search_cats_in_course "C" "P" ⟨[("S", 2)], fun _ => "i"⟩
              (some [("S", 1)]) []).2.1.getD []).drop
            (dcomp [("S", 2)] (parse_cache (some [("S", 1)]))).length).map
              (fun t => t.category)
          = (dcomp (parse_cache (some [("S", 1)])) []).map Prod.fst) :=
  ⟨by decide, by decide,
    c10_folderdiff_uses_prestage_cache "C" "P" ⟨[("S", 2)], fun _ => "i"⟩
      (some [("S", 1)]) [] (by decide) (by decide)⟩

/-- C5: in the per-course pipeline, the persisted record is staged exactly
when the server-vs-cache diff is non-empty, and the staging write is the
third event of the trace — strictly before the local-folder count and
before every file-listing resolution and every download of the course
(main.py: `stash_cache` at line 271 precedes `count_files_in_subfolders`
at line 277, and stage 3/stage 4 of `main` run only after stage 2
returns). -/
theorem c5_stage_iff_diff_and_before_listing (course fullPath : String)
    (index : CatIndex) (store : Option Dict) (folderdict : Dict)
    (listing : SyncTask → Except String (List String))
    (get_file : String → Except String (Option String))
    (h1 : index.counts ≠ []) :
    (dcomp index.counts (parse_cache store) = [] →
      ∀ d, Event.stashCache d ∉
        (course_pipeline course fullPath index store folderdict listing get_file).1)
    ∧ (dcomp index.counts (parse_cache store) ≠ [] →
      ∃ post,
        (course_pipeline course fullPath index store folderdict listing get_file).1
          = Event.mkdir :: Event.parseCache :: Event.stashCache index.counts ::
              Event.countFolders :: post
        ∧ (∀ d, Event.stashCache d ∉ post)
        ∧ (∀ cat, Event.listFiles cat ∈
            (course_pipeline course fullPath index store folderdict listing get_file).1 →
              Event.listFiles cat ∈ post)
        ∧ (∀ f, Event.download f ∈
            (course_pipeline course fullPath index store folderdict listing get_file).1 →
              Event.download f ∈ post)) := by
  constructor
  · intro hc d hmem
    simp [course_pipeline, search_cats_in_course, if_neg h1, hc] at hmem
  · intro hc
    have htr : (course_pipeline course fullPath index store folderdict listing get_file).1
        = Event.mkdir :: Event.parseCache :: Event.stashCache index.counts ::
            Event.countFolders ::
            ((((search_cats_in_course course fullPath index store
                folderdict).2.1.getD []).map (fun t => Event.listFiles t.category))
              ++ ((((search_cats_in_course course fullPath index store
                  folderdict).2.1.getD []).foldr
                    (fun t acc =>
                      (search_files_in_category (listing t) get_file).getD [] ++ acc)
                    []).map Event.download)) := by
      simp [course_pipeline, search_cats_in_course, if_neg h1, hc]
    refine ⟨_, htr, ?_, ?_, ?_⟩
    · intro d hmem
      simp only [List.mem_append, List.mem_map] at hmem
      rcases hmem with ⟨t, _, ht⟩ | ⟨f, _, hf⟩
      · exact Event.noConfusion ht
      · exact Event.noConfusion hf
    · intro cat hmem
      rw [htr] at hmem
      simp only [List.mem_cons] at hmem
      rcases hmem with h | h | h | h | h
      · exact Event.noConfusion h
      · exact Event.noConfusion h
      · exact Event.noConfusion h
      · exact Event.noConfusion h
      · exact h
    · intro f hmem
      rw [htr] at hmem
      simp only [List.mem_cons] at hmem
      rcases hmem with h | h | h | h | h
      · exact Event.noConfusion h
      · exact Event.noConfusion h
      · exact Event.noConfusion h
      · exact Event.noConfusion h
      · exact h

/-- Witness for C5: live index `{"S": 1}`, no persisted cache (`parse_cache`
falls back to the empty mapping), so the server diff is non-empty and the
staging write is the third trace event. -/
theorem c5_witness :
    wIndex.counts ≠ [] ∧
      ∃ post, (course_pipeline "C" "P" wIndex none [] (fun _ => Except.ok [])
          (fun _ => Except.ok none)).1
        = Event.mkdir :: Event.parseCache :: Event.stashCache wIndex.counts ::
            Event.countFolders :: post :=
  ⟨by decide, by
    obtain ⟨post, htr, -, -, -⟩ :=
      (c5_stage_iff_diff_and_before_listing "C" "P" wIndex none []
        (fun _ => Except.ok []) (fun _ => Except.ok none) (by decide)).2 (by decide)
    exact ⟨post, htr⟩⟩

/-- Instrumented effects of `threadpool_execute` (main.py lines 190-204):
one `invoke` per submitted argument tuple, and one `caught` for every
invocation whose `future.result()` raised (the `except` branch at line 201,
which only logs). -/
inductive ExecEvent (α E : Type) where
  | invoke (a : α)
  | caught (a : α) (e : E)

/-- Embedding of `threadpool_execute` (main.py lines 190-204).  The worker
is abstracted by its outcome per argument tuple: an exception (`error`), a
`None` return (`ok none`), or an iterable result (`ok (some l)`, consumed
by `results.extend`).  The completion order of `as_completed` is abstracted
to submission order; the bounded-parallelism window does not affect the
aggregate.  Returns the event log and the `results` aggregate. -/
def threadpool_execute {α β E : Type} (worker : α → Except E (Option (List β))) :
    List α → List (ExecEvent α E) × List β
  | [] => ([], [])
  | a :: rest =>
    let r := threadpool_execute worker rest
    match worker a with
    | .error e => (ExecEvent.invoke a :: ExecEvent.caught a e :: r.1, r.2)
    | .ok none => (ExecEvent.invoke a :: r.1, r.2)
    | .ok (some l) => (ExecEvent.invoke a :: r.1, l ++ r.2)

/-- C4: `threadpool_execute` invokes the worker exactly once per argument
tuple (the invocation log is exactly the item list), every raising
invocation is caught rather than propagated (a `caught` entry per raising
item — the function is total, so no exception escapes), and the returned
aggregate is the flattened concatenation of the non-`None` results of the
successful invocations, in order; raising invocations contribute nothing. -/
theorem c4_threadpool_execute_contract {α β E : Type}
    (worker : α → Except E (Option (List β))) (items : List α) :
    ((threadpool_execute worker items).1.filterMap
        (fun ev => match ev with | ExecEvent.invoke a => some a | _ => none) = items)
    ∧ ((threadpool_execute worker items).1.filterMap
        (fun ev => match ev with | ExecEvent.caught a _ => some a | _ => none)
      = items.filter (fun a => match worker a with | .error _ => true | _ => false))
    ∧ ((threadpool_execute worker items).2
      = (items.filterMap
          (fun a => match worker a with | .ok (some l) => some l | _ => none)).flatten) := by
  induction items with
  | nil => exact ⟨rfl, rfl, rfl⟩
  | cons a rest ih =>
    obtain ⟨ih1, ih2, ih3⟩ := ih
    cases hw : worker a with
    | error e =>
      refine ⟨?_, ?_, ?_⟩ <;>
        simp [threadpool_execute, hw, List.filterMap_cons, List.filter_cons,
          ih1, ih2, ih3]
    | ok o =>
      cases o with
      | none =>
        refine ⟨?_, ?_, ?_⟩ <;>
          simp [threadpool_execute, hw, List.filterMap_cons, List.filter_cons,
            ih1, ih2, ih3]
      | some l =>
        refine ⟨?_, ?_, ?_⟩ <;>
          simp [threadpool_execute, hw, List.filterMap_cons, List.filter_cons,
            ih1, ih2, ih3]

theorem search_files_go_error {F R E : Type} (get_file : F → Except E (Option R)) :
    ∀ (files : List F), (∃ f ∈ files, ∃ e, get_file f = .error e) →
      ∃ e, search_files_go (R := R) get_file files = .error e := by
  intro files
  induction files with
  | nil => rintro ⟨f, hf, -⟩; exact absurd hf (List.not_mem_nil f)
  | cons f0 rest ih =>
    rintro ⟨f, hf, e, he⟩
    cases hw : get_file f0 with
    | error e0 => exact ⟨e0, by simp [search_files_go, hw]⟩
    | ok o =>
      have hfrest : f ∈ rest := by
        rcases List.mem_cons.mp hf with rfl | h
        · rw [hw] at he; exact absurd he (by simp)
        · exact h
      obtain ⟨e1, he1⟩ := ih ⟨f, hfrest, e, he⟩
      cases o with
      | none => exact ⟨e1, by simp [search_files_go, hw, he1]⟩
      | some x => exact ⟨e1, by simp [search_files_go, hw, he1]⟩

/-- C8: if resolving the category's listing raised (`table` is an error) or
any per-file resolution raised (`get_file` errors on some file of the
listing), `search_files_in_category` returns `None` (main.py lines 320-322:
the `except` clause logs and falls through to an implicit `None` return),
so the category contributes nothing; the function is total, so the
exception never propagates to other categories or courses, and the
executor discards the `None` (see `c4_threadpool_execute_contract`). -/
theorem c8_category_failure_isolated {F R E : Type} (table : Except E (List F))
    (get_file : F → Except E (Option R))
    (h : (∃ e, table = .error e) ∨
      ∃ files, table = Except.ok files ∧ ∃ f ∈ files, ∃ e, get_file f = .error e) :
    search_files_in_category table get_file = none := by
  rcases h with ⟨e, rfl⟩ | ⟨files, rfl, hferr⟩
  · rfl
  · obtain ⟨e1, he1⟩ := search_files_go_error get_file files hferr
    simp [search_files_in_category, he1]

/-- Witness for C8: a raising listing resolution yields `None`. -/
theorem c8_witness :
    ((∃ e, (Except.error "boom" : Except String (List String)) = Except.error e) ∨
      ∃ files, (Except.error "boom" : Except String (List String)) = Except.ok files ∧
        ∃ f ∈ files, ∃ e : String,
          (fun _ : String => (Except.ok none : Except String (Option String))) f
            = Except.error e) ∧
      search_files_in_category (Except.error "boom" : Except String (List String))
        (fun _ : String => (Except.ok none : Except String (Option String))) = none :=
  ⟨Or.inl ⟨"boom", rfl⟩,
    c8_category_failure_isolated _ _ (Or.inl ⟨"boom", rfl⟩)⟩

/-- The login loop of `main` (main.py lines 115-124): `valid_login = False;
while not valid_login: try: get_login(...); valid_login = True; except
LoginError: continue`.  `attempt k` abstracts the outcome of the k-th
`get_login` call (`true` = success, `false` = a raised `LoginError`);
`fuel` bounds the number of loop iterations observed, and `none` means the
loop is still running after `fuel` iterations — the loop itself has no
termination path other than a successful attempt. -/
def login_loop (attempt : Nat → Bool) : Nat → Nat → Option Nat
  | 0, _ => none
  | fuel + 1, k => if attempt k then some k else login_loop attempt fuel (k + 1)

/-- The login loop terminates on the attempt oracle `attempt`: some finite
number of iterations reaches a terminating state. -/
def login_terminates (attempt : Nat → Bool) : Prop :=
  ∃ fuel, (login_loop attempt fuel 0).isSome

theorem login_loop_all_fail {attempt : Nat → Bool} (h : ∀ j, attempt j = false) :
    ∀ (n k : Nat), login_loop attempt n k = none := by
  intro n
  induction n with
  | zero => intro k; rfl
  | succ n ih => intro k; simp [login_loop, h k, ih]

/-- Counterexample to C9: on the concrete oracle whose every login attempt
fails with `LoginError`, the loop never terminates — there is no attempt
bound `N` after which it stops with a terminal failure; it loops
unboundedly on the caught error (main.py lines 116-124 have no counter and
no failure exit). -/
theorem c9_counterexample : ¬ login_terminates (fun _ => false) := by
  rintro ⟨fuel, h⟩
  rw [login_loop_all_fail (fun _ => rfl) fuel 0] at h
  simp at h

theorem login_loop_first_success (attempt : Nat → Bool) :
    ∀ (N k : Nat), (∀ j, j < N → attempt (k + j) = false) → attempt (k + N) = true →
      login_loop attempt (N + 1) k = some (k + N) := by
  intro N
  induction N with
  | zero =>
    intro k _ hsucc
    simp only [Nat.add_zero] at hsucc
    simp [login_loop, hsucc]
  | succ N ih =>
    intro k hfail hsucc
    have h0 : attempt k = false := by simpa using hfail 0 (Nat.succ_pos N)
    have hstep : login_loop attempt (N + 1 + 1) k = login_loop attempt (N + 1) (k + 1) := by
      simp [login_loop, h0]
    rw [hstep]
    have h1 : ∀ j, j < N → attempt (k + 1 + j) = false := by
      intro j hj
      have := hfail (j + 1) (by omega)
      have harith : k + (j + 1) = k + 1 + j := by omega
      rw [harith] at this
      exact this
    have h2 : attempt (k + 1 + N) = true := by
      have harith : k + 1 + N = k + (N + 1) := by omega
      rw [harith]
      exact hsucc
    rw [ih (k + 1) h1 h2]
    congr 1
    omega

/-- C9 as amended: the login step is an unbounded retry loop.  It exits
exactly when an attempt succeeds: if the first `N` attempts fail and
attempt `N` succeeds, the loop ends at attempt `N`; and if every attempt
fails it never terminates, whatever iteration bound is observed — there is
no terminal-failure exit after any number of failed attempts. -/
theorem c9_login_loop_unbounded_retry (attempt : Nat → Bool) (N : Nat) :
    ((∀ j, j < N → attempt j = false) → attempt N = true →
      login_loop attempt (N + 1) 0 = some N)
    ∧ ((∀ j, attempt j = false) → login_loop attempt N 0 = none) := by
  constructor
  · intro hfail hsucc
    have h1 : ∀ j, j < N → attempt (0 + j) = false := by
      intro j hj; rw [Nat.zero_add]; exact hfail j hj
    have h2 : attempt (0 + N) = true := by rw [Nat.zero_add]; exact hsucc
    have := login_loop_first_success attempt N 0 h1 h2
    rwa [Nat.zero_add] at this
  · intro hall
    exact login_loop_all_fail hall N 0

/-- Witness for C9's amended theorem: with success on the third attempt the
loop returns that attempt; with constant failure it is still running after
five iterations. -/
theorem c9_amended_witness :
    login_loop (fun n => n == 2) 3 0 = some 2 ∧
      login_loop (fun _ => false) 5 0 = none :=
  ⟨(c9_login_loop_unbounded_retry (fun n => n == 2) 2).1 (by decide) (by decide),
    (c9_login_loop_unbounded_retry (fun _ => false) 5).2 (fun _ => rfl)⟩
